import Mathlib

/-!
Verification of the BabySynth session recording / pattern detection /
replay core (session_manager.py, playback_engine.py) against its
natural-language specification.

Times are modelled as rationals (the source uses Python floats produced by
time subtraction; none of the verified properties depends on rounding).
Database tables are modelled as in-memory lists of rows kept in insertion
order; SQL ORDER BY clauses are modelled by a stable insertion sort.
Strings built with f-string interpolation are modelled by inductive
descriptions carrying the interpolated numbers.
-/

/-- Event type column of the events table (event_type TEXT). -/
inductive EventType
  | button_press
  | button_release
deriving DecidableEq, Repr

/-- A row of the events table; columns not consulted by the verified
claims (note_name, frequency, colors, audio_file, metadata) are omitted. -/
structure Event where
  relative_time : ℚ
  event_type : EventType
  x : ℤ
  y : ℤ
deriving DecidableEq, Repr

/-- A row of the led_changes table. -/
structure LedChange where
  relative_time : ℚ
  x : ℤ
  y : ℤ
  color_r : ℤ
  color_g : ℤ
  color_b : ℤ
deriving DecidableEq, Repr

/-- pattern_type column of the patterns table. -/
inductive PatternType
  | rapid_sequence
  | long_pause
  | repeated_sequence
deriving DecidableEq, Repr

/-- The description strings the detector writes, with the interpolated
numbers kept exact: "Rapid sequence of {count} notes",
"Pause of {gap}s - moment of concentration?", "Repeated sequence discovered". -/
inductive Description
  | rapidDesc (count : ℕ)
  | pauseDesc (gap : ℚ)
  | repeatedDesc
deriving DecidableEq, Repr

/-- A row of the patterns table.  metadata models the JSON object
written for repeated sequences: some positionList, none otherwise. -/
structure Pattern where
  pattern_type : PatternType
  start_time : ℚ
  end_time : ℚ
  description : Description
  metadata : Option (List (ℤ × ℤ))
deriving DecidableEq, Repr

/-- events[i].event_type == button_press. -/
def isPress (e : Event) : Bool :=
  match e.event_type with
  | .button_press => true
  | .button_release => false

/-- The consecutive pairs (events[i], events[i+1]) walked by the
for i in range(len(events)-1) loops of detect_patterns. -/
def pairsOf (l : List Event) : List (Event × Event) :=
  l.zip l.tail

/-- The rapid-sequence scan of detect_patterns (session_manager.py
lines 353-376), as a fold over consecutive event pairs.  State:
rapid_sequence_start (none models Python None) and rapid_sequence_count. -/
def rapidLoop (start : Option ℚ) (count : ℕ) : List (Event × Event) → List Pattern
  | [] => []
  | (a, b) :: rest =>
    if isPress a = true then
      if b.relative_time - a.relative_time < 3/10 ∧ isPress b = true then
        rapidLoop (some (start.getD a.relative_time)) (count + 1) rest
      else if 3 ≤ count then
        ⟨.rapid_sequence, start.getD 0, a.relative_time, .rapidDesc count, none⟩
          :: rapidLoop none 0 rest
      else
        rapidLoop none 0 rest
    else
      rapidLoop start count rest

/-- The rapid_sequence patterns inserted by detect_patterns. -/
def detectRapid (events : List Event) : List Pattern :=
  rapidLoop none 0 (pairsOf events)

/-- The long-pause scan of detect_patterns (lines 378-390): for every
adjacent pair of rows that are both presses with gap > 3.0, insert a
long_pause pattern. -/
def detectLongPauses (events : List Event) : List Pattern :=
  (pairsOf events).filterMap fun p =>
    if isPress p.1 = true ∧ isPress p.2 = true ∧
        3 < p.2.relative_time - p.1.relative_time then
      some ⟨.long_pause, p.1.relative_time, p.2.relative_time,
            .pauseDesc (p.2.relative_time - p.1.relative_time), none⟩
    else none

/-- The ordered (x, y) tuple of press events i..i+2 (sequence_length = 3). -/
def window (ps : List Event) (i : ℕ) : List (ℤ × ℤ) :=
  ((ps.drop i).take 3).map fun e => (e.x, e.y)

/-- Fallback row used by positional lookups; indices are always in range
where it matters. -/
def dummyEvent : Event := ⟨0, .button_press, 0, 0⟩

/-- relative_time of press_events[i]. -/
def relTimeAt (ps : List Event) (i : ℕ) : ℚ :=
  (ps.getD i dummyEvent).relative_time

/-- The inner scan of the repeated-sequence detector: the first k in
range(k0, k0+fuel) whose window matches w (the for k ... break loop). -/
def findFirstMatch (ps : List Event) (w : List (ℤ × ℤ)) : ℕ → ℕ → Option ℕ
  | _, 0 => none
  | k, fuel + 1 =>
    if window ps k = w then some k else findFirstMatch ps w (k + 1) fuel

/-- The repeated-sequence detector of detect_patterns (lines 392-416):
window length 3, guarded by len(press_events) >= 6; for each start i the
first later matching window (if any) yields one pattern; the metadata
stores the window position list. -/
def detectRepeated (ps : List Event) : List Pattern :=
  if 3 * 2 ≤ ps.length then
    (List.range (ps.length - 3 + 1)).filterMap fun i =>
      match findFirstMatch ps (window ps i) (i + 3) (ps.length - 3 + 1 - (i + 3)) with
      | some k =>
        some ⟨.repeated_sequence, relTimeAt ps i, relTimeAt ps (k + 3 - 1),
              .repeatedDesc, some (window ps i)⟩
      | none => none
  else []

/-- detect_patterns (session_manager.py lines 334-421) applied to the
session event rows (ordered by relative_time): guard len(events) < 3,
then the three scans in insertion order. -/
def detect_patterns (events : List Event) : List Pattern :=
  if events.length < 3 then []
  else detectRapid events ++ detectLongPauses events
        ++ detectRepeated (events.filter isPress)

/-! ## Timeline merger (playback_engine.py, _playback_loop lines 106-146)

The loop concatenates event items and led items, sorts by time, appends
two markers per pattern (start then end, patterns ordered by start_time),
and sorts again.  Python list.sort is stable; a stable sort by a total
preorder is extensionally unique, so it is modelled by insertion sort
with the non-strict key comparison, which is stable in the same sense. -/

/-- Tag of a merged timeline item. -/
inductive TLKind
  | event
  | led
  | pattern_start
  | pattern_end
deriving DecidableEq, Repr

/-- Payload carried by a timeline item (the 'data' dict entry). -/
inductive TLPayload
  | ofEvent (e : Event)
  | ofLed (l : LedChange)
  | ofPattern (p : Pattern)
deriving DecidableEq, Repr

/-- A merged timeline item {time, type, data}. -/
structure TLItem where
  time : ℚ
  kind : TLKind
  data : TLPayload
deriving DecidableEq, Repr

/-- The sort key comparison timeline.sort(key=lambda x: x[time]). -/
abbrev byTime (a b : TLItem) : Prop := a.time ≤ b.time

instance : DecidableRel byTime := fun a b => inferInstanceAs (Decidable (a.time ≤ b.time))

instance : IsTotal TLItem byTime := ⟨fun a b => le_total a.time b.time⟩

instance : IsTrans TLItem byTime := ⟨fun _ _ _ h1 h2 => le_trans h1 h2⟩

/-- The merged replay timeline built by _playback_loop. -/
def mergeTimeline (events : List Event) (led_changes : List LedChange)
    (patterns : List Pattern) : List TLItem :=
  let timeline :=
    (events.map fun e => ⟨e.relative_time, .event, .ofEvent e⟩)
      ++ (led_changes.map fun l => (⟨l.relative_time, .led, .ofLed l⟩ : TLItem))
  let sorted1 := List.insertionSort byTime timeline
  let pattern_markers := patterns.flatMap fun p =>
    [(⟨p.start_time, .pattern_start, .ofPattern p⟩ : TLItem),
     ⟨p.end_time, .pattern_end, .ofPattern p⟩]
  List.insertionSort byTime (sorted1 ++ pattern_markers)

/-- The tie-break priority imposed by the specification:
pattern_start < led < event < pattern_end. -/
def specPriority : TLKind → ℕ
  | .pattern_start => 0
  | .led => 1
  | .event => 2
  | .pattern_end => 3

/-- The tie-break rank the code actually realizes through stable
sorting: events first, then led changes, then pattern markers. -/
def kindRank : TLKind → ℕ
  | .event => 0
  | .led => 1
  | .pattern_start => 2
  | .pattern_end => 2

/-! ## Playback wait loop (playback_engine.py lines 151-198, 222-230)

Discrete-time model of the per-item wait loop.  One tick is one pass of
the inner while loop (one 1 ms sleep); paused t gives the is_paused flag
as sampled at the loop condition on tick t; is_playing stays true (stop
is not exercised by the claims).  The elapsed clock of the source is
(time.time() - start_time) * playback_speed, modelled as t * speed. -/

/-- The inner wait loop for one item: starting at tick t, return the tick
at which the loop exits.  It exits when the while condition fails (the
pause flag is set) or when the scaled elapsed time reaches the item time.
Fuel bounds the recursion and is chosen large enough in every use. -/
def waitTicks (paused : ℕ → Bool) (speed : ℚ) (due : ℚ) : ℕ → ℕ → ℕ
  | t, 0 => t
  | t, fuel + 1 =>
    if paused t = true then t
    else if due ≤ (t : ℚ) * speed then t
    else waitTicks paused speed due (t + 1) fuel

/-- The outer for-item loop: the tick at which each timeline item is
processed, in order (processing an item itself takes no tick). -/
def processTicks (paused : ℕ → Bool) (speed : ℚ) (fuel : ℕ) :
    List ℚ → ℕ → List ℕ
  | [], _ => []
  | due :: rest, t =>
    let t2 := waitTicks paused speed due t fuel
    t2 :: processTicks paused speed fuel rest t2

/-- A pause() issued at tick k and never resumed: is_paused is false
before tick k and true from tick k on. -/
def pausedFrom (k : ℕ) : ℕ → Bool := fun t => decide (k ≤ t)

/-! ## Playback engine state (playback_engine.py lines 52-104, 240-246) -/

/-- Log and console messages the engine emits, newest first. -/
inductive PELog
  | warnAlreadyPlaying
  | errSessionNotFound (sid : ℕ)
  | warnNoEvents (sid : ℕ)
  | infoSpeedSet (s : ℚ)
  | warnInvalidSpeed (s : ℚ)
deriving DecidableEq, Repr

/-- The mutable fields of PlaybackEngine touched by play_session and
set_speed, plus the log. -/
structure EngineState where
  is_playing : Bool
  is_paused : Bool
  playback_speed : ℚ
  current_time : ℚ
  log : List PELog
deriving DecidableEq, Repr

/-- A session row; columns other than duration are not consulted by the
verified claims. -/
structure SessionRow where
  duration : Option ℚ
deriving DecidableEq, Repr

/-- The four tables of the store, as rows tagged with session_id in
insertion order. -/
structure Store where
  sessions : List (ℕ × SessionRow)
  events : List (ℕ × Event)
  led_changes : List (ℕ × LedChange)
  patterns : List (ℕ × Pattern)
deriving DecidableEq, Repr

/-- SELECT * FROM sessions WHERE id = ? (get_session). -/
def get_session (st : Store) (sid : ℕ) : Option SessionRow :=
  (st.sessions.find? fun p => p.1 == sid).map (·.2)

/-- Key comparison for ORDER BY relative_time ASC on event rows. -/
abbrev byEventTime (a b : Event) : Prop := a.relative_time ≤ b.relative_time

instance : DecidableRel byEventTime :=
  fun a b => inferInstanceAs (Decidable (a.relative_time ≤ b.relative_time))

/-- get_session_events: rows of the session ordered by relative_time
(ties keep insertion order, as SQLite scans the index). -/
def get_session_events (st : Store) (sid : ℕ) : List Event :=
  List.insertionSort byEventTime ((st.events.filter fun p => p.1 == sid).map (·.2))

/-- Key comparison for ORDER BY relative_time ASC on led rows. -/
abbrev byLedTime (a b : LedChange) : Prop := a.relative_time ≤ b.relative_time

instance : DecidableRel byLedTime :=
  fun a b => inferInstanceAs (Decidable (a.relative_time ≤ b.relative_time))

/-- get_session_led_changes, ordered by relative_time. -/
def get_session_led_changes (st : Store) (sid : ℕ) : List LedChange :=
  List.insertionSort byLedTime ((st.led_changes.filter fun p => p.1 == sid).map (·.2))

/-- Key comparison for ORDER BY start_time ASC on pattern rows. -/
abbrev byStartTime (a b : Pattern) : Prop := a.start_time ≤ b.start_time

instance : DecidableRel byStartTime :=
  fun a b => inferInstanceAs (Decidable (a.start_time ≤ b.start_time))

/-- get_session_patterns, ordered by start_time. -/
def get_session_patterns (st : Store) (sid : ℕ) : List Pattern :=
  List.insertionSort byStartTime ((st.patterns.filter fun p => p.1 == sid).map (·.2))

/-- play_session (lines 52-104): guard on is_playing, on a missing
session, and on a session with no events and no led changes; otherwise
set speed, reset current_time, raise is_playing, clear is_paused and
start the loop.  The given speed is applied without any range check. -/
def play_session (eng : EngineState) (st : Store) (sid : ℕ) (speed : ℚ) :
    EngineState :=
  if eng.is_playing = true then
    { eng with log := .warnAlreadyPlaying :: eng.log }
  else
    match get_session st sid with
    | none => { eng with log := .errSessionNotFound sid :: eng.log }
    | some _ =>
      if get_session_events st sid = [] ∧ get_session_led_changes st sid = [] then
        { eng with log := .warnNoEvents sid :: eng.log }
      else
        { eng with playback_speed := speed, current_time := 0,
                   is_playing := true, is_paused := false }

/-- set_speed (lines 240-246): accept only 0.25 <= speed <= 4.0, else
warn and keep the previous speed. -/
def set_speed (eng : EngineState) (speed : ℚ) : EngineState :=
  if 1/4 ≤ speed ∧ speed ≤ 4 then
    { eng with playback_speed := speed, log := .infoSpeedSet speed :: eng.log }
  else
    { eng with log := .warnInvalidSpeed speed :: eng.log }

/-! ## Session manager recording (session_manager.py lines 199-247)

The recording entry points run in hardware callbacks.  The relative
time of the write is passed as a parameter (the source computes it as
time.time() - session_start_time). -/

/-- Warnings the session manager logs, newest first. -/
inductive SMLog
  | warnCannotRecord (t : EventType)
deriving DecidableEq, Repr

/-- The mutable state of SessionManager relevant to recording: the
current-session pointer, the two write tables and the log. -/
structure SMState where
  current_session_id : Option ℕ
  events : List (ℕ × Event)
  led_changes : List (ℕ × LedChange)
  log : List SMLog
deriving DecidableEq, Repr

/-- record_led_change (lines 199-218): silently dropped when there is no
current session (no log statement in this branch), else one row inserted. -/
def record_led_change (st : SMState) (x y : ℤ) (color : ℤ × ℤ × ℤ)
    (relative_time : ℚ) : SMState :=
  match st.current_session_id with
  | none => st
  | some sid =>
    { st with led_changes :=
        st.led_changes ++ [(sid, ⟨relative_time, x, y, color.1, color.2.1, color.2.2⟩)] }

/-- The internal event writer behind record_button_press and
record_button_release (lines 220-247): with no current session it logs a
warning and drops the write, else it inserts one row. -/
def record_event (st : SMState) (event_type : EventType) (x y : ℤ)
    (relative_time : ℚ) : SMState :=
  match st.current_session_id with
  | none => { st with log := .warnCannotRecord event_type :: st.log }
  | some sid =>
    { st with events := st.events ++ [(sid, ⟨relative_time, event_type, x, y⟩)] }

/-! ## Pattern detection as a table write pass (for claim C9)

detect_patterns only ever INSERTs into the patterns table; one call
appends the patterns computed from the session events. -/

/-- One detection pass over a session: the patterns table after the
INSERT statements of detect_patterns have run. -/
def detect_patterns_pass (table : List (ℕ × Pattern)) (sid : ℕ)
    (events : List Event) : List (ℕ × Pattern) :=
  table ++ (detect_patterns events).map fun p => (sid, p)

/-! ## Session summary (session_manager.py lines 466-511) -/

/-- The summary dictionary returned by get_session_summary; the empty
dictionary returned for a missing or empty session is modelled as none
at the call sites via Option Summary. -/
structure Summary where
  session_id : ℕ
  duration : Option ℚ
  total_events : ℕ
  button_presses : ℕ
  most_pressed_buttons : List ((ℤ × ℤ) × ℕ)
  average_tempo : ℚ
  patterns_detected : ℕ
  pattern_types : List PatternType
deriving DecidableEq, Repr

/-- button_counts accumulation: a dict from position to count, in first
insertion order (Python dict semantics). -/
def bumpCount (acc : List ((ℤ × ℤ) × ℕ)) (k : ℤ × ℤ) : List ((ℤ × ℤ) × ℕ) :=
  match acc with
  | [] => [(k, 1)]
  | (k2, c) :: rest =>
    if k2 = k then (k2, c + 1) :: rest else (k2, c) :: bumpCount rest k

/-- The button_counts dict of get_session_summary. -/
def buttonCounts (press : List Event) : List ((ℤ × ℤ) × ℕ) :=
  press.foldl (fun acc e => bumpCount acc (e.x, e.y)) []

/-- Key comparison of sorted(key=count, reverse=True): stable descending
sort by count. -/
abbrev byCountDesc (a b : (ℤ × ℤ) × ℕ) : Prop := b.2 ≤ a.2

instance : DecidableRel byCountDesc := fun a b => inferInstanceAs (Decidable (b.2 ≤ a.2))

/-- get_session_summary (lines 466-511).  Returns none where the source
returns the empty dictionary. -/
def get_session_summary (st : Store) (sid : ℕ) : Option Summary :=
  match get_session st sid with
  | none => none
  | some session =>
    let events := get_session_events st sid
    if events = [] then none
    else
      let patterns := get_session_patterns st sid
      let press_events := events.filter isPress
      let most_pressed := (List.insertionSort byCountDesc (buttonCounts press_events)).take 5
      let avg_tempo :=
        if 1 < press_events.length then
          let diffs := (press_events.zip press_events.tail).map
            fun p => p.2.relative_time - p.1.relative_time
          (diffs.foldl (· + ·) 0) / (diffs.length : ℚ)
        else 0
      some ⟨sid, session.duration, events.length, press_events.length,
            most_pressed, avg_tempo, patterns.length,
            (patterns.map (·.pattern_type)).dedup⟩

/-- display_session_summary reads summary.get(total_events, 0); the
default is taken when the summary is the empty dictionary. -/
def displayedTotalEvents (s : Option Summary) : ℕ :=
  match s with
  | none => 0
  | some s => s.total_events

/-- summary.get(button_presses, 0) as shown by display_session_summary. -/
def displayedButtonPresses (s : Option Summary) : ℕ :=
  match s with
  | none => 0
  | some s => s.button_presses

/-- summary.get(average_tempo, 0) as shown by display_session_summary. -/
def displayedAvgTempo (s : Option Summary) : ℚ :=
  match s with
  | none => 0
  | some s => s.average_tempo

/-- summary.get(most_pressed_buttons, []) as shown by
display_session_summary. -/
def displayedMostPressed (s : Option Summary) : List ((ℤ × ℤ) × ℕ) :=
  match s with
  | none => []
  | some s => s.most_pressed_buttons

/-! ## Stability of the modelled sort

Python list.sort is stable.  Insertion sort with a non-strict total
comparison is stable in the same sense; the lemma below transfers a
pairwise invariant that holds for input-ordered pairs of equal keys
(and for any strictly ordered pair) to the sorted output. -/

theorem pairwise_orderedInsert_of_pairwise {α : Type} (r : α → α → Prop)
    [DecidableRel r] [IsTotal α r] [IsTrans α r] (Q : α → α → Prop)
    (hQlt : ∀ a b, r a b → ¬ r b a → Q a b) (x : α) (L : List α)
    (hsort : L.Sorted r) (hQL : L.Pairwise Q)
    (hx : ∀ b ∈ L, r x b → r b x → Q x b) :
    (List.orderedInsert r x L).Pairwise Q := by
  induction L with
  | nil => simp
  | cons h t ih =>
    simp only [List.orderedInsert]
    by_cases hxh : r x h
    · rw [if_pos hxh]
      refine List.Pairwise.cons ?_ hQL
      intro b hb
      rcases List.mem_cons.mp hb with hb1 | hbt
      · rw [hb1]
        by_cases hhx : r h x
        · exact hx h (List.mem_cons_self h t) hxh hhx
        · exact hQlt x h hxh hhx
      · have hhb : r h b := List.rel_of_sorted_cons hsort b hbt
        have hxb : r x b := IsTrans.trans x h b hxh hhb
        by_cases hbx : r b x
        · exact hx b (List.mem_cons_of_mem h hbt) hxb hbx
        · exact hQlt x b hxb hbx
    · rw [if_neg hxh]
      have hhx : r h x := (IsTotal.total x h).resolve_left hxh
      rcases List.pairwise_cons.mp hQL with ⟨hQh, hQt⟩
      refine List.Pairwise.cons ?_ ?_
      · intro y hy
        rcases (List.mem_orderedInsert r).mp hy with rfl | hyt
        · exact hQlt h y hhx hxh
        · exact hQh y hyt
      · exact ih hsort.of_cons hQt
          (fun b hb => hx b (List.mem_cons_of_mem h hb))

theorem pairwise_insertionSort_of_pairwise {α : Type} (r : α → α → Prop)
    [DecidableRel r] [IsTotal α r] [IsTrans α r] (Q : α → α → Prop)
    (hQlt : ∀ a b, r a b → ¬ r b a → Q a b) (l : List α)
    (hl : l.Pairwise fun a b => r a b → r b a → Q a b) :
    (List.insertionSort r l).Pairwise Q := by
  induction l with
  | nil => exact List.Pairwise.nil
  | cons x l ih =>
    rcases List.pairwise_cons.mp hl with ⟨hx, hl2⟩
    simp only [List.insertionSort]
    exact pairwise_orderedInsert_of_pairwise r Q hQlt x _
      (List.sorted_insertionSort r l) (ih hl2)
      (fun b hb => hx b ((List.mem_insertionSort r).mp hb))

/-- Every timeline kind has rank at most 2. -/
theorem kindRank_le_two (k : TLKind) : kindRank k ≤ 2 := by
  cases k <;> simp [kindRank]

/-- Pattern markers have rank exactly 2. -/
theorem kindRank_marker (patterns : List Pattern) :
    ∀ m ∈ patterns.flatMap (fun p =>
      [(⟨p.start_time, .pattern_start, .ofPattern p⟩ : TLItem),
       ⟨p.end_time, .pattern_end, .ofPattern p⟩]), kindRank m.kind = 2 := by
  intro m hm
  rcases List.mem_flatMap.mp hm with ⟨p, _, hmem⟩
  simp only [List.mem_cons, List.not_mem_nil, or_false] at hmem
  rcases hmem with h1 | h2
  · rw [h1]; rfl
  · rw [h2]; rfl

/-- Unfolding of mergeTimeline. -/
theorem mergeTimeline_eq (events : List Event) (led_changes : List LedChange)
    (patterns : List Pattern) :
    mergeTimeline events led_changes patterns =
      List.insertionSort byTime
        ((List.insertionSort byTime
          ((events.map fun e => (⟨e.relative_time, .event, .ofEvent e⟩ : TLItem))
            ++ (led_changes.map fun l => (⟨l.relative_time, .led, .ofLed l⟩ : TLItem))))
          ++ patterns.flatMap fun p =>
            [(⟨p.start_time, .pattern_start, .ofPattern p⟩ : TLItem),
             ⟨p.end_time, .pattern_end, .ofPattern p⟩]) := rfl

/-- A concrete session: one event and one led change, both at time 1. -/
def cexEvent : Event := ⟨1, .button_press, 0, 0⟩

/-- The led change at time 1 used against claim C3. -/
def cexLed : LedChange := ⟨1, 0, 0, 0, 0, 0⟩

/-- Claim C3, counterexample: with an event and a led change at equal
time 1, the merged timeline puts the event strictly before the led item,
so the claimed fixed priority pattern_start < led < event < pattern_end
does not govern equal-time items. -/
theorem c3_counterexample :
    ¬ ((mergeTimeline [cexEvent] [cexLed] []).Pairwise fun a b =>
        a.time = b.time → specPriority a.kind ≤ specPriority b.kind) := by
  decide

/-- Claim C3 (amended): the merged timeline is ascending by time, and
items with equal time keep the order the stable sorts realize: events
first, then led changes, then pattern markers. -/
theorem c3_mergeTimeline_order (events : List Event)
    (led_changes : List LedChange) (patterns : List Pattern) :
    (mergeTimeline events led_changes patterns).Sorted byTime ∧
    (mergeTimeline events led_changes patterns).Pairwise
      (fun a b => a.time = b.time → kindRank a.kind ≤ kindRank b.kind) := by
  have hQlt : ∀ a b : TLItem, byTime a b → ¬ byTime b a →
      (a.time = b.time → kindRank a.kind ≤ kindRank b.kind) := by
    intro a b _ hnba heq
    exact absurd (le_of_eq heq.symm) hnba
  have hevK : ∀ a ∈ (events.map fun e =>
      (⟨e.relative_time, .event, .ofEvent e⟩ : TLItem)), a.kind = .event := by
    intro a ha
    rcases List.mem_map.mp ha with ⟨e, _, rfl⟩
    rfl
  have hledK : ∀ a ∈ (led_changes.map fun l =>
      (⟨l.relative_time, .led, .ofLed l⟩ : TLItem)), a.kind = .led := by
    intro a ha
    rcases List.mem_map.mp ha with ⟨l, _, rfl⟩
    rfl
  constructor
  · exact List.sorted_insertionSort byTime _
  · rw [mergeTimeline_eq]
    apply pairwise_insertionSort_of_pairwise byTime _ hQlt
    rw [List.pairwise_append]
    refine ⟨?_, ?_, ?_⟩
    · refine List.Pairwise.imp (fun hq _ _ => hq) ?_
      apply pairwise_insertionSort_of_pairwise byTime _ hQlt
      rw [List.pairwise_append]
      refine ⟨?_, ?_, ?_⟩
      · apply List.pairwise_of_forall_mem_list
        intro a ha b hb _ _ _
        rw [hevK a ha, hevK b hb]
      · apply List.pairwise_of_forall_mem_list
        intro a ha b hb _ _ _
        rw [hledK a ha, hledK b hb]
      · intro a ha b hb _ _ _
        rw [hevK a ha, hledK b hb]
        decide
    · apply List.pairwise_of_forall_mem_list
      intro a ha b hb _ _ _
      rw [kindRank_marker patterns a ha, kindRank_marker patterns b hb]
    · intro a _ b hb _ _ _
      rw [kindRank_marker patterns b hb]
      exact kindRank_le_two a.kind

/-! ## Behaviour of the rapid-sequence scan on a run of close presses -/

/-- The last element of the nonempty list e0 :: es. -/
def lastOf (e0 : Event) (es : List Event) : Event :=
  es.foldl (fun _ b => b) e0

/-- lastOf steps through a cons. -/
theorem lastOf_cons (e0 e1 : Event) (es : List Event) :
    lastOf e0 (e1 :: es) = lastOf e1 es := rfl

/-- The gap relation of the rapid-sequence scan: the next press follows
within 0.3 s. -/
def closeGap (a b : Event) : Prop := b.relative_time - a.relative_time < 3/10

/-- pairsOf steps through two leading elements. -/
theorem pairsOf_cons (a b : Event) (l : List Event) :
    pairsOf (a :: b :: l) = (a, b) :: pairsOf (b :: l) := rfl

/-- While every consecutive pair is a close press pair, the scan only
extends its run and emits nothing; in particular a run that is still
open when the event stream ends is lost. -/
theorem rapidLoop_allClose (es : List Event) : ∀ (e0 : Event) (st : Option ℚ) (c : ℕ),
    isPress e0 = true → (∀ e ∈ es, isPress e = true) →
    List.Chain closeGap e0 es →
    rapidLoop st c (pairsOf (e0 :: es)) = [] := by
  induction es with
  | nil => intro e0 st c _ _ _; rfl
  | cons e1 es ih =>
    intro e0 st c hp0 hps hchain
    rcases List.chain_cons.mp hchain with ⟨hgap, hchain2⟩
    rw [pairsOf_cons, rapidLoop, if_pos hp0,
        if_pos ⟨hgap, hps e1 (List.mem_cons_self e1 es)⟩]
    exact ih e1 _ _ (hps e1 (List.mem_cons_self e1 es))
      (fun e he => hps e (List.mem_cons_of_mem e1 he)) hchain2

/-- A run of close presses followed by one press at gap at least 0.3 s:
the scan, entered with its start already latched at s and count c,
flushes at the last press of the run, emitting one pattern exactly when
the final gap count c + es.length reaches 3. -/
theorem rapidLoop_run (es : List Event) : ∀ (e0 far : Event) (s : ℚ) (c : ℕ),
    isPress e0 = true → (∀ e ∈ es, isPress e = true) → isPress far = true →
    List.Chain closeGap e0 es →
    3/10 ≤ far.relative_time - (lastOf e0 es).relative_time →
    rapidLoop (some s) c (pairsOf (e0 :: (es ++ [far]))) =
      if 3 ≤ c + es.length then
        [⟨.rapid_sequence, s, (lastOf e0 es).relative_time,
          .rapidDesc (c + es.length), none⟩]
      else [] := by
  induction es with
  | nil =>
    intro e0 far s c hp0 _ hpf _ hfar
    have hnot : ¬ (far.relative_time - e0.relative_time < 3/10 ∧ isPress far = true) := by
      intro h
      exact absurd h.1 (not_lt.mpr hfar)
    rw [List.nil_append, pairsOf_cons, rapidLoop, if_pos hp0, if_neg hnot]
    by_cases hc : 3 ≤ c
    · rw [if_pos hc, if_pos (by simpa using hc)]
      rfl
    · rw [if_neg hc, if_neg (by simpa using hc)]
      rfl
  | cons e1 es ih =>
    intro e0 far s c hp0 hps hpf hchain hfar
    rcases List.chain_cons.mp hchain with ⟨hgap, hchain2⟩
    rw [List.cons_append, pairsOf_cons, rapidLoop, if_pos hp0,
        if_pos ⟨hgap, hps e1 (List.mem_cons_self e1 es)⟩]
    have heq : (some s).getD e0.relative_time = s := rfl
    rw [heq]
    rw [ih e1 far s (c + 1) (hps e1 (List.mem_cons_self e1 es))
      (fun e he => hps e (List.mem_cons_of_mem e1 he)) hpf hchain2
      (by rw [← lastOf_cons e0 e1 es]; exact hfar)]
    rw [lastOf_cons]
    have harith : c + 1 + es.length = c + (es.length + 1) := by omega
    rw [harith]
    rfl

/-- Claim C4, counterexample: four presses at 0, 0.1, 0.2, 0.3 (all gaps
below 0.3 s) end the event stream while the run is still open; the claim
requires one rapid_sequence to be emitted when the press stream ends, but
the scan never flushes at stream end and detection emits nothing. -/
theorem c4_counterexample :
    ¬ ∃ p ∈ detect_patterns
        [⟨0, .button_press, 0, 0⟩, ⟨1/10, .button_press, 0, 0⟩,
         ⟨1/5, .button_press, 0, 0⟩, ⟨3/10, .button_press, 0, 0⟩],
      p.pattern_type = PatternType.rapid_sequence := by
  norm_num [detect_patterns, detectRapid, detectLongPauses, detectRepeated,
    rapidLoop, pairsOf, isPress, List.zip, List.zipWith, List.filter, List.filterMap]

/-- Claim C4 (amended): the scan counts close gaps, not presses.  A run
of close presses e0 :: es broken by a press far at gap at least 0.3 s
emits exactly one rapid_sequence spanning first to last press of the run
if the gap count es.length is at least 3 (at least 4 presses), with the
gap count in the description, and emits NOTHING otherwise (so a broken
run of 3 or fewer presses is lost); a run still open at the end of the
event stream also emits nothing. -/
theorem c4_rapid_sequence_runs :
    (∀ (e0 : Event) (es : List Event) (far : Event),
      isPress e0 = true → (∀ e ∈ es, isPress e = true) → isPress far = true →
      List.Chain closeGap e0 es →
      3/10 ≤ far.relative_time - (lastOf e0 es).relative_time →
      detectRapid (e0 :: (es ++ [far])) =
        if 3 ≤ es.length then
          [⟨.rapid_sequence, e0.relative_time, (lastOf e0 es).relative_time,
            .rapidDesc es.length, none⟩]
        else []) ∧
    (∀ (e0 : Event) (es : List Event),
      isPress e0 = true → (∀ e ∈ es, isPress e = true) →
      List.Chain closeGap e0 es →
      detectRapid (e0 :: es) = []) := by
  constructor
  · intro e0 es far hp0 hps hpf hchain hfar
    cases es with
    | nil =>
      have hnot : ¬ (far.relative_time - e0.relative_time < 3/10 ∧
          isPress far = true) := by
        intro h
        exact absurd h.1 (not_lt.mpr hfar)
      rw [detectRapid, List.nil_append, pairsOf_cons, rapidLoop, if_pos hp0,
          if_neg hnot, if_neg (by omega : ¬ (3 : ℕ) ≤ 0),
          if_neg (by decide : ¬ 3 ≤ ([] : List Event).length)]
      rfl
    | cons e1 es =>
      rcases List.chain_cons.mp hchain with ⟨hgap, hchain2⟩
      rw [detectRapid, List.cons_append, pairsOf_cons, rapidLoop, if_pos hp0,
          if_pos ⟨hgap, hps e1 (List.mem_cons_self e1 es)⟩]
      have heq : (none : Option ℚ).getD e0.relative_time = e0.relative_time := rfl
      rw [heq]
      rw [rapidLoop_run es e1 far e0.relative_time 1
        (hps e1 (List.mem_cons_self e1 es))
        (fun e he => hps e (List.mem_cons_of_mem e1 he)) hpf hchain2
        (by rw [← lastOf_cons e0 e1 es]; exact hfar)]
      rw [lastOf_cons]
      have harith : 1 + es.length = (e1 :: es).length := by
        simp only [List.length_cons]
        omega
      rw [harith]
  · intro e0 es hp0 hps hchain
    exact rapidLoop_allClose es e0 none 0 hp0 hps hchain

/-- Witness for the amended claim C4: presses at 0, 0.1, 0.15, 0.2
followed by a press at 10 (gap count 3) flush one rapid_sequence
spanning 0 to 0.2; presses at 0, 0.1, 0.2 followed by a press at 10
(gap count 2, a broken run of only 3 presses) emit nothing; and the four
close presses without the far press (stream end) also emit nothing. -/
theorem c4_rapid_sequence_runs_witness :
    detectRapid
      (⟨0, .button_press, 0, 0⟩ ::
        ([⟨1/10, .button_press, 0, 0⟩, ⟨3/20, .button_press, 0, 0⟩,
          ⟨1/5, .button_press, 0, 0⟩] ++ [⟨10, .button_press, 0, 0⟩])) =
      [⟨.rapid_sequence, 0, 1/5, .rapidDesc 3, none⟩] ∧
    detectRapid
      (⟨0, .button_press, 0, 0⟩ ::
        ([⟨1/10, .button_press, 0, 0⟩, ⟨1/5, .button_press, 0, 0⟩]
          ++ [⟨10, .button_press, 0, 0⟩])) = [] ∧
    detectRapid
      (⟨0, .button_press, 0, 0⟩ ::
        [⟨1/10, .button_press, 0, 0⟩, ⟨3/20, .button_press, 0, 0⟩,
         ⟨1/5, .button_press, 0, 0⟩]) = [] :=
  ⟨c4_rapid_sequence_runs.1 ⟨0, .button_press, 0, 0⟩
      [⟨1/10, .button_press, 0, 0⟩, ⟨3/20, .button_press, 0, 0⟩,
       ⟨1/5, .button_press, 0, 0⟩] ⟨10, .button_press, 0, 0⟩
      (by decide) (by decide) (by decide)
      (by norm_num [List.chain_cons, closeGap])
      (by norm_num [lastOf, List.foldl]),
   c4_rapid_sequence_runs.1 ⟨0, .button_press, 0, 0⟩
      [⟨1/10, .button_press, 0, 0⟩, ⟨1/5, .button_press, 0, 0⟩]
      ⟨10, .button_press, 0, 0⟩
      (by decide) (by decide) (by decide)
      (by norm_num [List.chain_cons, closeGap])
      (by norm_num [lastOf, List.foldl]),
   c4_rapid_sequence_runs.2 ⟨0, .button_press, 0, 0⟩
      [⟨1/10, .button_press, 0, 0⟩, ⟨3/20, .button_press, 0, 0⟩,
       ⟨1/5, .button_press, 0, 0⟩]
      (by decide) (by decide)
      (by norm_num [List.chain_cons, closeGap])⟩

/-- Claim C5: for any positions, presses at relative times 0, 0.1, 0.15,
0.2 and 10 yield exactly one rapid_sequence spanning 0 to 0.2 and exactly
one long_pause spanning 0.2 to 10, and nothing else (in particular no
repeated_sequence, as fewer than 6 presses exist). -/
theorem c5_detect_patterns_example (x0 y0 x1 y1 x2 y2 x3 y3 x4 y4 : ℤ) :
    detect_patterns
      [⟨0, .button_press, x0, y0⟩, ⟨1/10, .button_press, x1, y1⟩,
       ⟨3/20, .button_press, x2, y2⟩, ⟨1/5, .button_press, x3, y3⟩,
       ⟨10, .button_press, x4, y4⟩] =
      [⟨.rapid_sequence, 0, 1/5, .rapidDesc 3, none⟩,
       ⟨.long_pause, 1/5, 10, .pauseDesc (49/5), none⟩] := by
  norm_num [detect_patterns, detectRapid, detectLongPauses, detectRepeated,
    rapidLoop, pairsOf, isPress, List.zip, List.zipWith, List.filter, List.filterMap]

/-! ## Properties of the repeated-sequence inner scan -/

/-- If the inner scan returns index m, then m is in range, its window
matches, and no earlier index in range matches: the scan stops at the
first repetition. -/
theorem findFirstMatch_some (ps : List Event) (w : List (ℤ × ℤ)) :
    ∀ (fuel k m : ℕ), findFirstMatch ps w k fuel = some m →
      k ≤ m ∧ m < k + fuel ∧ window ps m = w ∧
        ∀ j, k ≤ j → j < m → window ps j ≠ w := by
  intro fuel
  induction fuel with
  | zero => intro k m h; exact absurd h (by simp [findFirstMatch])
  | succ fuel ih =>
    intro k m h
    rw [findFirstMatch] at h
    by_cases hk : window ps k = w
    · rw [if_pos hk] at h
      cases h
      exact ⟨le_refl k, by omega, hk, fun j h1 h2 => absurd (lt_of_le_of_lt h1 h2) (lt_irrefl k)⟩
    · rw [if_neg hk] at h
      rcases ih (k + 1) m h with ⟨h1, h2, h3, h4⟩
      refine ⟨by omega, by omega, h3, ?_⟩
      intro j hj1 hj2
      rcases Nat.eq_or_lt_of_le hj1 with hj | hj
      · rw [← hj]; exact hk
      · exact h4 j hj hj2

/-- If some index in range matches, the inner scan finds one. -/
theorem findFirstMatch_isSome (ps : List Event) (w : List (ℤ × ℤ)) :
    ∀ (fuel k m : ℕ), k ≤ m → m < k + fuel → window ps m = w →
      (findFirstMatch ps w k fuel).isSome = true := by
  intro fuel
  induction fuel with
  | zero => intro k m h1 h2 _; omega
  | succ fuel ih =>
    intro k m h1 h2 hm
    rw [findFirstMatch]
    by_cases hk : window ps k = w
    · rw [if_pos hk]; rfl
    · rw [if_neg hk]
      have hne : m ≠ k := fun h => hk (h ▸ hm)
      exact ih (k + 1) m (by omega) (by omega) hm

/-- The press events of the claim C6 example: positions
(0,0),(1,1),(2,2),(5,5),(0,0),(1,1),(2,2) at relative times 0..6. -/
def exRepeat : List Event :=
  [⟨0, .button_press, 0, 0⟩, ⟨1, .button_press, 1, 1⟩,
   ⟨2, .button_press, 2, 2⟩, ⟨3, .button_press, 5, 5⟩,
   ⟨4, .button_press, 0, 0⟩, ⟨5, .button_press, 1, 1⟩,
   ⟨6, .button_press, 2, 2⟩]

/-- Whenever the window at start index i recurs at a later in-range
index, the detector emits one pattern for i, matched at the first such
index. -/
theorem repeated_first_match_emits (ps : List Event) (i k0 : ℕ)
    (hik : i + 3 ≤ k0) (hk0 : k0 + 3 ≤ ps.length)
    (hw : window ps k0 = window ps i) :
    ∃ k, i + 3 ≤ k ∧ k + 3 ≤ ps.length ∧
      window ps k = window ps i ∧
      (∀ j, i + 3 ≤ j → j < k → window ps j ≠ window ps i) ∧
      (⟨.repeated_sequence, relTimeAt ps i, relTimeAt ps (k + 3 - 1),
        .repeatedDesc, some (window ps i)⟩ : Pattern) ∈ detectRepeated ps := by
  have hlen : 3 * 2 ≤ ps.length := by omega
  have hsome : (findFirstMatch ps (window ps i) (i + 3)
      (ps.length - 3 + 1 - (i + 3))).isSome = true :=
    findFirstMatch_isSome ps (window ps i) (ps.length - 3 + 1 - (i + 3))
      (i + 3) k0 hik (by omega) hw
  rcases Option.isSome_iff_exists.mp hsome with ⟨m, hm⟩
  rcases findFirstMatch_some ps (window ps i) (ps.length - 3 + 1 - (i + 3))
      (i + 3) m hm with ⟨h1, h2, h3, h4⟩
  refine ⟨m, h1, by omega, h3, h4, ?_⟩
  rw [detectRepeated, if_pos hlen]
  apply List.mem_filterMap.mpr
  refine ⟨i, List.mem_range.mpr (by omega), ?_⟩
  rw [hm]

/-- Claim C6: whenever the window at start index i recurs at some later
index in range, the detector emits a repeated_sequence pattern for i,
matched at the FIRST such later index k, spanning from press i to press
k+2, whose metadata position list equals both the first window and the
matched window (the two are identical); and the concrete example of the
claim yields exactly one pattern, covering indices 0..2 matched at 4..6. -/
theorem c6_repeated_sequence :
    (∀ (ps : List Event) (i k0 : ℕ), i + 3 ≤ k0 → k0 + 3 ≤ ps.length →
      window ps k0 = window ps i →
      ∃ k, i + 3 ≤ k ∧ k + 3 ≤ ps.length ∧
        window ps k = window ps i ∧
        (∀ j, i + 3 ≤ j → j < k → window ps j ≠ window ps i) ∧
        (⟨.repeated_sequence, relTimeAt ps i, relTimeAt ps (k + 3 - 1),
          .repeatedDesc, some (window ps i)⟩ : Pattern) ∈ detectRepeated ps) ∧
    detectRepeated exRepeat =
      [⟨.repeated_sequence, 0, 6, .repeatedDesc, some [(0, 0), (1, 1), (2, 2)]⟩] := by
  constructor
  · exact repeated_first_match_emits
  · have hrange : List.range 5 = [0, 1, 2, 3, 4] := by decide
    norm_num [detectRepeated, exRepeat, hrange, findFirstMatch, window,
      relTimeAt, List.filterMap]

/-- Witness for claim C6 at the example of the claim: start index 0,
recurring at index 4. -/
theorem c6_repeated_sequence_witness :
    ∃ k, 0 + 3 ≤ k ∧ k + 3 ≤ exRepeat.length ∧
      window exRepeat k = window exRepeat 0 ∧
      (∀ j, 0 + 3 ≤ j → j < k → window exRepeat j ≠ window exRepeat 0) ∧
      (⟨.repeated_sequence, relTimeAt exRepeat 0, relTimeAt exRepeat (k + 3 - 1),
        .repeatedDesc, some (window exRepeat 0)⟩ : Pattern) ∈ detectRepeated exRepeat :=
  c6_repeated_sequence.1 exRepeat 0 4 (by decide) (by decide) (by decide)

/-- Claim C1, code behaviour at a failing input: timeline items due at
scaled times 0 and 10, speed 1, pause() issued at tick 5.  The first item
is processed at tick 0; the second item is processed at tick 5, while the
engine is paused and before its due time (5 * 1 < 10): instead of
freezing, the loop exits the wait and fast-forwards through the pending
item during the pause. -/
theorem c1_pause_fast_forwards :
    processTicks (pausedFrom 5) 1 20 [0, 10] 0 = [0, 5] ∧
    pausedFrom 5 5 = true ∧ ((5 : ℚ) * 1 < 10) := by
  refine ⟨?_, by decide, by norm_num⟩
  norm_num [processTicks, waitTicks, pausedFrom]

/-- The engine before any playback: idle, speed 1. -/
def engIdle : EngineState := ⟨false, false, 1, 0, []⟩

/-- A store holding one session with one recorded event. -/
def storeOne : Store :=
  ⟨[(1, ⟨some 5⟩)], [(1, ⟨0, .button_press, 0, 0⟩)], [], []⟩

/-- Claim C2, counterexample: play_session with the out-of-range speed
10 does not reject the call; it starts playback and applies speed 10
instead of retaining the previous speed 1. -/
theorem c2_counterexample :
    ¬ (1/4 ≤ (10 : ℚ) ∧ (10 : ℚ) ≤ 4) ∧
    (play_session engIdle storeOne 1 10).playback_speed = 10 ∧
    (play_session engIdle storeOne 1 10).is_playing = true := by
  refine ⟨by norm_num, ?_, ?_⟩ <;>
    norm_num [play_session, engIdle, storeOne, get_session, get_session_events,
      get_session_led_changes, List.find?, List.filter, List.insertionSort]

/-- Claim C2 (amended): only set_speed validates the range, rejecting an
out-of-range speed with a warning and keeping the prior speed (and the
prior playing state); play_session applies whatever speed it is given
whenever it starts playback. -/
theorem c2_speed_validation :
    (∀ (eng : EngineState) (s : ℚ), ¬ (1/4 ≤ s ∧ s ≤ 4) →
      (set_speed eng s).playback_speed = eng.playback_speed ∧
      (set_speed eng s).log = .warnInvalidSpeed s :: eng.log ∧
      (set_speed eng s).is_playing = eng.is_playing) ∧
    (∀ (eng : EngineState) (st : Store) (sid : ℕ) (s : ℚ),
      eng.is_playing = false → (get_session st sid).isSome = true →
      get_session_events st sid ≠ [] →
      (play_session eng st sid s).playback_speed = s ∧
      (play_session eng st sid s).is_playing = true) := by
  constructor
  · intro eng s h
    rw [set_speed, if_neg h]
    exact ⟨rfl, rfl, rfl⟩
  · intro eng st sid s hplay hsess hev
    rw [play_session]
    rw [hplay]
    simp only [Bool.false_eq_true, if_false]
    cases hs : get_session st sid with
    | none => rw [hs] at hsess; simp at hsess
    | some row =>
      have hcond : ¬ (get_session_events st sid = [] ∧
          get_session_led_changes st sid = []) := by
        intro hc
        exact hev hc.1
      rw [if_neg hcond]
      exact ⟨rfl, rfl⟩

/-- Witness for the amended claim C2: speed 10 is rejected by set_speed
with the prior speed kept, while play_session started on storeOne
applies speed 10 directly. -/
theorem c2_speed_validation_witness :
    ((set_speed engIdle 10).playback_speed = engIdle.playback_speed ∧
     (set_speed engIdle 10).log = .warnInvalidSpeed 10 :: engIdle.log ∧
     (set_speed engIdle 10).is_playing = engIdle.is_playing) ∧
    ((play_session engIdle storeOne 1 10).playback_speed = 10 ∧
     (play_session engIdle storeOne 1 10).is_playing = true) :=
  ⟨c2_speed_validation.1 engIdle 10 (by norm_num),
   c2_speed_validation.2 engIdle storeOne 1 10 rfl (by rfl)
     (by norm_num [get_session_events, storeOne, List.filter, List.insertionSort])⟩

/-- A session with two presses at 0 and 5 plus one release at 5.1. -/
def exShort : List Event :=
  [⟨0, .button_press, 0, 0⟩, ⟨5, .button_press, 1, 1⟩,
   ⟨51/10, .button_release, 1, 1⟩]

/-- Claim C7, counterexample: this session has only 2 press events, yet
detection runs (the guard counts all events, and releases push the total
to 3) and emits a long_pause pattern for the 5 s gap. -/
theorem c7_counterexample :
    (exShort.filter isPress).length = 2 ∧
    detect_patterns exShort = [⟨.long_pause, 0, 5, .pauseDesc 5, none⟩] := by
  constructor
  · decide
  · norm_num [detect_patterns, detectRapid, detectLongPauses, detectRepeated,
      rapidLoop, pairsOf, isPress, exShort, List.zip, List.zipWith,
      List.filter, List.filterMap]

/-- Claim C7 (amended): sessions with fewer than 3 events in total (of
any type) yield zero patterns; the guard counts all events, not press
events. -/
theorem c7_short_sessions (events : List Event) (h : events.length < 3) :
    detect_patterns events = [] := by
  rw [detect_patterns, if_pos h]

/-- Witness for the amended claim C7 on a one-event session. -/
theorem c7_short_sessions_witness :
    ([(⟨0, .button_press, 0, 0⟩ : Event)] : List Event).length < 3 ∧
    detect_patterns [(⟨0, .button_press, 0, 0⟩ : Event)] = [] :=
  ⟨by decide, c7_short_sessions [⟨0, .button_press, 0, 0⟩] (by decide)⟩

/-- A session manager state with no current session. -/
def smNoSession : SMState := ⟨none, [], [], []⟩

/-- Claim C8, counterexample: record_led_change with no current session
returns the state unchanged; in particular no warning is appended to the
log, contradicting the claimed warning for both entry points. -/
theorem c8_counterexample :
    record_led_change smNoSession 0 0 (0, 0, 0) 1 = smNoSession ∧
    (record_led_change smNoSession 0 0 (0, 0, 0) 1).log = [] := ⟨rfl, rfl⟩

/-- Claim C8 (amended): with no current session both writers drop the
write and never fail; record_event logs a warning, record_led_change
returns silently without logging. -/
theorem c8_no_session_writes (st : SMState) (et : EventType) (x y : ℤ)
    (c : ℤ × ℤ × ℤ) (t : ℚ) (h : st.current_session_id = none) :
    record_led_change st x y c t = st ∧
    (record_event st et x y t).events = st.events ∧
    (record_event st et x y t).led_changes = st.led_changes ∧
    (record_event st et x y t).current_session_id = st.current_session_id ∧
    (record_event st et x y t).log = .warnCannotRecord et :: st.log := by
  obtain ⟨cur, ev, led, lg⟩ := st
  cases cur with
  | none => exact ⟨rfl, rfl, rfl, rfl, rfl⟩
  | some sid => simp at h

/-- Witness for the amended claim C8. -/
theorem c8_no_session_writes_witness :
    record_led_change smNoSession 2 3 (7, 8, 9) 1 = smNoSession ∧
    (record_event smNoSession .button_release 2 3 1).events = smNoSession.events ∧
    (record_event smNoSession .button_release 2 3 1).led_changes =
      smNoSession.led_changes ∧
    (record_event smNoSession .button_release 2 3 1).current_session_id =
      smNoSession.current_session_id ∧
    (record_event smNoSession .button_release 2 3 1).log =
      .warnCannotRecord .button_release :: smNoSession.log :=
  c8_no_session_writes smNoSession .button_release 2 3 (7, 8, 9) 1 rfl

/-- The press events of the claim C5 example with concrete positions,
used to exhibit duplication across detection passes. -/
def exSession : List Event :=
  [⟨0, .button_press, 0, 0⟩, ⟨1/10, .button_press, 1, 1⟩,
   ⟨3/20, .button_press, 2, 2⟩, ⟨1/5, .button_press, 3, 3⟩,
   ⟨10, .button_press, 4, 4⟩]

/-- Claim C9, counterexample: running detection twice over the unchanged
exSession stream does not leave the patterns table equal to the result of
one pass; the second pass appends a duplicate copy of both patterns. -/
theorem c9_counterexample :
    detect_patterns_pass (detect_patterns_pass [] 1 exSession) 1 exSession ≠
      detect_patterns_pass [] 1 exSession := by
  have hD : detect_patterns exSession =
      [⟨.rapid_sequence, 0, 1/5, .rapidDesc 3, none⟩,
       ⟨.long_pause, 1/5, 10, .pauseDesc (49/5), none⟩] := by
    norm_num [detect_patterns, detectRapid, detectLongPauses, detectRepeated,
      rapidLoop, pairsOf, isPress, exSession, List.zip, List.zipWith,
      List.filter, List.filterMap]
  intro h
  have hlen := congrArg List.length h
  simp [detect_patterns_pass, hD] at hlen

/-- Claim C9 (amended): detection is deterministic, so a second pass over
an unchanged event stream appends the same patterns again: the table
after two passes is the table plus two copies of the single-pass output,
and whenever the detector emits anything the two tables differ (the pass
is not idempotent). -/
theorem c9_detection_not_idempotent (table : List (ℕ × Pattern)) (sid : ℕ)
    (events : List Event) (h : detect_patterns events ≠ []) :
    detect_patterns_pass (detect_patterns_pass table sid events) sid events =
      table ++ ((detect_patterns events).map fun p => (sid, p))
        ++ ((detect_patterns events).map fun p => (sid, p)) ∧
    detect_patterns_pass (detect_patterns_pass table sid events) sid events ≠
      detect_patterns_pass table sid events := by
  constructor
  · simp [detect_patterns_pass, List.append_assoc]
  · intro heq
    have hlen := congrArg List.length heq
    simp only [detect_patterns_pass, List.length_append, List.length_map] at hlen
    have hz : (detect_patterns events).length = 0 := by omega
    exact h (List.length_eq_zero.mp hz)

/-- Witness for the amended claim C9 on the exSession stream. -/
theorem c9_detection_not_idempotent_witness :
    detect_patterns exSession ≠ [] ∧
    (detect_patterns_pass (detect_patterns_pass [] 1 exSession) 1 exSession =
      [] ++ ((detect_patterns exSession).map fun p => (1, p))
        ++ ((detect_patterns exSession).map fun p => (1, p)) ∧
     detect_patterns_pass (detect_patterns_pass [] 1 exSession) 1 exSession ≠
      detect_patterns_pass [] 1 exSession) := by
  have hD : detect_patterns exSession =
      [⟨.rapid_sequence, 0, 1/5, .rapidDesc 3, none⟩,
       ⟨.long_pause, 1/5, 10, .pauseDesc (49/5), none⟩] := by
    norm_num [detect_patterns, detectRapid, detectLongPauses, detectRepeated,
      rapidLoop, pairsOf, isPress, exSession, List.zip, List.zipWith,
      List.filter, List.filterMap]
  have h : detect_patterns exSession ≠ [] := by
    rw [hD]
    exact List.cons_ne_nil _ _
  exact ⟨h, c9_detection_not_idempotent [] 1 exSession h⟩

/-- Claim C10: for a missing session id or a session with no recorded
events the summary reducer returns the empty summary, and the caller
display_session_summary consequently shows the activity defaults. -/
theorem c10_empty_summary (st : Store) (sid : ℕ)
    (h : get_session st sid = none ∨ get_session_events st sid = []) :
    get_session_summary st sid = none ∧
    displayedTotalEvents (get_session_summary st sid) = 0 ∧
    displayedButtonPresses (get_session_summary st sid) = 0 ∧
    displayedAvgTempo (get_session_summary st sid) = 0 ∧
    displayedMostPressed (get_session_summary st sid) = [] := by
  have hnone : get_session_summary st sid = none := by
    rcases h with h | h
    · simp [get_session_summary, h]
    · cases hs : get_session st sid with
      | none => simp [get_session_summary, hs]
      | some s => simp [get_session_summary, hs, h]
  rw [hnone]
  exact ⟨rfl, rfl, rfl, rfl, rfl⟩

/-- The store with no rows at all. -/
def emptyStore : Store := ⟨[], [], [], []⟩

/-- Witness for claim C10 at a nonexistent session id. -/
theorem c10_empty_summary_witness :
    (get_session emptyStore 1 = none ∨ get_session_events emptyStore 1 = []) ∧
    (get_session_summary emptyStore 1 = none ∧
     displayedTotalEvents (get_session_summary emptyStore 1) = 0 ∧
     displayedButtonPresses (get_session_summary emptyStore 1) = 0 ∧
     displayedAvgTempo (get_session_summary emptyStore 1) = 0 ∧
     displayedMostPressed (get_session_summary emptyStore 1) = []) :=
  ⟨Or.inl rfl, c10_empty_summary emptyStore 1 (Or.inl rfl)⟩
